import Mathlib

/-!
Verification of the veklang instruction compiler.

Shallow embedding of the Python sources of `duccdev/veklang`:
  * `src/src/asm.py`        — the `Asm` program builder and its `raw` serializer
  * `src/src/instructions.py` — the instruction model (via `utils.enum`, the
    member `SUB` receives the same discriminant 0 as `ADD` and is therefore a
    Python `Enum` alias of `ADD`)
  * `src/src/compiler.py`   — `compile`, the optimizing compiler
  * `src/src/emitter.py`    — `emit`, the non-optimizing emitter variant
  * `src/src/errors.py`     — `CompilationError`

Python operands are `list[Any]`; in the compiler only `isinstance(x, int)`
matters, so operands are embedded as `Value`: either an integer or a
non-integer value (represented by a Python string, the representative
non-integer type; `Value.pyStr` is Python `str()`, `Value.typeName` is
`str(type(x))`).  Python exceptions are embedded as `Except`: a raised
`CompilationError` or an uncaught `IndexError` (from `ins.args[0]` on an
empty list) aborts the computation and no `Asm` value is returned.
-/

namespace Veklang

/-- Operand values carried by an instruction (`args: list[Any]` in
`src/src/instructions.py`); only integer-ness is ever inspected by the
compiler, so non-integer operands are represented by a string payload. -/
inductive Value where
  | int (n : Int)
  | other (s : String)
deriving Repr, DecidableEq

/-- Python `str(v)`, as used by f-string interpolation. -/
def Value.pyStr : Value → String
  | .int n => toString n
  | .other s => s

/-- Python `str(type(v))`, as interpolated in the operand-type error message. -/
def Value.typeName : Value → String
  | .int _ => "<class \x27int\x27>"
  | .other _ => "<class \x27str\x27>"

/-- Python `isinstance(v, int)`. -/
def Value.isInt : Value → Bool
  | .int _ => true
  | .other _ => false

/-- Python `v != 0` for an operand value (a non-integer compares unequal to 0). -/
def Value.neZero : Value → Bool
  | .int n => n != 0
  | .other _ => true

/-- `InstructionType` from `src/src/instructions.py`.  `utils.enum` assigns
the member values `ADD = 0`, `SUB = 0`, `EXIT = 1` (`enum(reset=True)`
returns 0 without incrementing, and the next call returns
`enum_counter - 1 = 0` again), so in the Python `Enum` the member `SUB` is
an *alias* of `ADD`: `InstructionType.SUB is InstructionType.ADD` holds and
the enumeration has only two distinct members.  The embedding therefore has
two constructors, with `SUB` defined as the same value as `ADD` below. -/
inductive InstructionType where
  | ADD
  | EXIT
deriving Repr, DecidableEq

/-- The Python `Enum` alias `InstructionType.SUB`: the very same member as
`ADD`, since both carry the discriminant 0. -/
def InstructionType.SUB : InstructionType := InstructionType.ADD

/-- `Instruction` from `src/src/instructions.py`. -/
structure Instruction where
  type : InstructionType
  args : List Value
deriving Repr, DecidableEq

/-- `Asm` from `src/src/asm.py`: four ordered statement lists. -/
structure Asm where
  segment_bss : List String
  segment_data : List String
  segment_text : List String
  label_start : List String
deriving Repr, DecidableEq

/-- `Asm.__init__`: empty data segments, the fixed `global _start` header in
the text segment, empty entry body. -/
def Asm.init : Asm :=
  { segment_bss := []
    segment_data := []
    segment_text := ["global _start"]
    label_start := [] }

/-- `Asm.raw` from `src/src/asm.py`: serialize the four segments in fixed
order, each statement on its own line prefixed by a single space. -/
def Asm.raw (a : Asm) : String :=
  let final := "segment .bss"
  let final := final ++ String.join (a.segment_bss.map (fun ins => "\n " ++ ins))
  let final := final ++ "\nsegment .data"
  let final := final ++ String.join (a.segment_data.map (fun ins => "\n " ++ ins))
  let final := final ++ "\nsegment .text"
  let final := final ++ String.join (a.segment_text.map (fun ins => "\n " ++ ins))
  let final := final ++ "\n_start:"
  let final := final ++ String.join (a.label_start.map (fun ins => "\n " ++ ins))
  final

/-- Exceptions that can escape `compile`/`emit` in `src/src/compiler.py` and
`src/src/emitter.py`: an explicitly raised `CompilationError`, or the
`IndexError` raised by `ins.args[0]` when the operand list is empty. -/
inductive PyError where
  | compilationError (msg : String)
  | indexError (msg : String)
deriving Repr, DecidableEq

/-- The wrong-operand-count f-string of `compiler.py`/`emitter.py`:
`f"Instruction {ins_name} ({i}): Expected 2 arguments, got {len(ins.args)}"`. -/
def fmtCount (ins_name : String) (i : Nat) (found : Nat) : String :=
  s!"Instruction {ins_name} ({i}): Expected 2 arguments, got {found}"

/-- The wrong-operand-type f-string of `compiler.py`/`emitter.py`:
`f"Instruction {ins_name} ({i}): Unknown argument types: {type(a)}, {type(b)}"`. -/
def fmtType (ins_name : String) (i : Nat) (ta tb : String) : String :=
  s!"Instruction {ins_name} ({i}): Unknown argument types: {ta}, {tb}"

/-- The instruction loop of `compile` from `src/src/compiler.py`, with the
`enumerate` index `i` and the mutable `asm` made explicit.  Python's
`case Type.ADD | Type.SUB:` is a single arm for the single aliased member
(`Type.SUB` *is* `Type.ADD`), so the match below has one `ADD` arm; the
ternaries `if ins.type = InstructionType.ADD` inside it mirror the source's
`ins.type == Type.ADD` tests, which are always true — their `else` branches
(`"SUB"`, subtraction, `sub rbx, rax`) are dead code, exactly as in the
source.  Python checks `len(ins.args) != 2` before `isinstance`; the three
operand-list patterns below are pairwise disjoint and reproduce exactly that
order of tests (a list fails the first two patterns iff its length is
not 2). -/
def compileLoop (cf elim dc : Bool) : Nat → List Instruction → Asm → Except PyError Asm
  | _, [], asm => .ok asm
  | i, ins :: rest, asm =>
    match ins.type with
    | InstructionType.ADD =>
      if elim then
        compileLoop cf elim dc (i + 1) rest asm
      else
        let ins_name := if ins.type = InstructionType.ADD then "ADD" else "SUB"
        match ins.args with
        | [Value.int na, Value.int nb] =>
          if cf then
            let v := if ins.type = InstructionType.ADD then na + nb else na - nb
            compileLoop cf elim dc (i + 1) rest
              { asm with label_start := asm.label_start ++ [s!"mov rax, {v}"] }
          else
            let op := if ins.type = InstructionType.ADD then "add rax, rbx" else "sub rbx, rax"
            compileLoop cf elim dc (i + 1) rest
              { asm with label_start :=
                  asm.label_start ++ [s!"mov rax, {na}", s!"mov rbx, {nb}", op] }
        | [a, b] =>
          .error (PyError.compilationError (fmtType ins_name i a.typeName b.typeName))
        | args =>
          .error (PyError.compilationError (fmtCount ins_name i args.length))
    | InstructionType.EXIT =>
      match ins.args with
      | [] => .error (PyError.indexError "list index out of range")
      | a :: _ =>
        let astr := a.pyStr
        let s2 := if a.neZero then s!"mov rdi, {astr}" else "xor rdi, rdi"
        let asm2 := { asm with label_start := asm.label_start ++ ["mov rax, 60", s2, "syscall"] }
        if dc then .ok asm2 else compileLoop cf elim dc (i + 1) rest asm2

/-- `compile` from `src/src/compiler.py`.  The keyword-only flags
`opt_constant_folding`, `opt_useless_expressions`, `opt_dead_code` are passed
positionally in that order. -/
def compile (instructions : List Instruction) (cf elim dc : Bool) : Except PyError Asm :=
  compileLoop cf elim dc 0 instructions Asm.init

/-- The instruction loop of `emit` from `src/src/emitter.py`, threading the
`exit_satisfied` flag.  As in `compileLoop`, the `case Type.ADD | Type.SUB:`
arm is a single `ADD` arm because `SUB` aliases `ADD`, and the `else`
branches of the inner ternaries are dead code. -/
def emitLoop : Nat → List Instruction → Asm → Bool → Except PyError (Asm × Bool)
  | _, [], asm, exit_satisfied => .ok (asm, exit_satisfied)
  | i, ins :: rest, asm, exit_satisfied =>
    match ins.type with
    | InstructionType.ADD =>
      let ins_name := if ins.type = InstructionType.ADD then "ADD" else "SUB"
      match ins.args with
      | [Value.int na, Value.int nb] =>
        let op := if ins.type = InstructionType.ADD then "add rax, rbx" else "sub rbx, rax"
        emitLoop (i + 1) rest
          { asm with label_start := asm.label_start ++ [s!"mov rax, {na}", s!"mov rbx, {nb}", op] }
          exit_satisfied
      | [a, b] =>
        .error (PyError.compilationError (fmtType ins_name i a.typeName b.typeName))
      | args =>
        .error (PyError.compilationError (fmtCount ins_name i args.length))
    | InstructionType.EXIT =>
      match ins.args with
      | [] => .error (PyError.indexError "list index out of range")
      | a :: _ =>
        let astr := a.pyStr
        let s2 := if a.neZero then s!"mov rdi, {astr}" else "xor rdi, rdi"
        emitLoop (i + 1) rest
          { asm with label_start := asm.label_start ++ ["mov rax, 60", s2, "syscall"] }
          true

/-- `emit` from `src/src/emitter.py`: like the non-optimizing compiler, but
appends a default exit-with-code-zero sequence when the loop finished without
ever lowering an `EXIT`. -/
def emit (instructions : List Instruction) : Except PyError Asm :=
  match emitLoop 0 instructions Asm.init false with
  | .error e => .error e
  | .ok (asm, exit_satisfied) =>
    if exit_satisfied then
      .ok asm
    else
      .ok { asm with label_start :=
              asm.label_start ++ ["mov rax, 60", "xor rdi, rdi", "syscall"] }

/-- Join a list of lines with newlines (the line-oriented reading of the
serialized program used to state the serialization claim). -/
def joinLines : List String → String
  | [] => ""
  | [x] => x
  | x :: y :: rest => x ++ "\n" ++ joinLines (y :: rest)

/-- Modelled from the spec: the serialized program as a list of lines — the
four segments in the fixed order uninitialized-data, initialized-data, code,
entry-label followed by the entry body, one statement per line, each indented
uniformly by one space. -/
def specLines (a : Asm) : List String :=
  "segment .bss" :: (a.segment_bss.map (fun s => " " ++ s)
    ++ "segment .data" :: (a.segment_data.map (fun s => " " ++ s)
      ++ "segment .text" :: (a.segment_text.map (fun s => " " ++ s)
        ++ "_start:" :: a.label_start.map (fun s => " " ++ s))))

/-- Proof helper: the effect of one `ADD`/`SUB` iteration of the compiler
loop on the program state — `.ok` with the updated state, or the raised
error.  Its branches are literally those of the `ADD` arm of `compileLoop`
(which also serves aliased `SUB` instructions); with `cf = false`,
`elim = false` they are also those of `emitLoop`.  The `else` sides of the
`t = ADD` ternaries are dead for the same reason they are dead in the
source. -/
def stepAddSub (cf elim : Bool) (t : InstructionType) (args : List Value)
    (i : Nat) (asm : Asm) : Except PyError Asm :=
  if elim then .ok asm
  else
    let ins_name := if t = InstructionType.ADD then "ADD" else "SUB"
    match args with
    | [Value.int na, Value.int nb] =>
      if cf then
        let v := if t = InstructionType.ADD then na + nb else na - nb
        .ok { asm with label_start := asm.label_start ++ [s!"mov rax, {v}"] }
      else
        let op := if t = InstructionType.ADD then "add rax, rbx" else "sub rbx, rax"
        .ok { asm with label_start :=
                asm.label_start ++ [s!"mov rax, {na}", s!"mov rbx, {nb}", op] }
    | [a, b] => .error (PyError.compilationError (fmtType ins_name i a.typeName b.typeName))
    | args => .error (PyError.compilationError (fmtCount ins_name i args.length))

/-! ## Theorems -/

/-- One-step unfolding of `compileLoop` at a non-`EXIT` head, phrased through
`stepAddSub`. -/
lemma compileLoop_cons_addsub (cf elim dc : Bool) (i : Nat) (t : InstructionType)
    (args : List Value) (rest : List Instruction) (asm : Asm)
    (h : t ≠ InstructionType.EXIT) :
    compileLoop cf elim dc i (⟨t, args⟩ :: rest) asm =
      match stepAddSub cf elim t args i asm with
      | .error e => .error e
      | .ok asm2 => compileLoop cf elim dc (i + 1) rest asm2 := by
  cases t with
  | EXIT => exact absurd rfl h
  | ADD =>
    cases elim with
    | false =>
      rcases args with _ | ⟨a, _ | ⟨b, _ | ⟨c, cs⟩⟩⟩
      · rfl
      · rcases a with n | s <;> rfl
      · rcases a with n | s <;> rcases b with m | sb <;> cases cf <;> rfl
      · rcases a with n | s <;> rcases b with m | sb <;> rfl
    | true => rfl

/-- With the dead-code flag on, everything after the first `EXIT` instruction
is irrelevant: the loop computes the same result as if the stream had been
cut right after that `EXIT`. -/
lemma compileLoop_dc_truncates (cf elim : Bool) (ex : Instruction)
    (hex : ex.type = InstructionType.EXIT) (post : List Instruction) :
    ∀ (pre : List Instruction), (∀ x ∈ pre, x.type ≠ InstructionType.EXIT) →
    ∀ (i : Nat) (asm : Asm),
    compileLoop cf elim true i (pre ++ ex :: post) asm =
      compileLoop cf elim true i (pre ++ [ex]) asm := by
  intro pre
  induction pre with
  | nil =>
    intro _ i asm
    obtain ⟨t, args⟩ := ex
    simp only [Instruction.type] at hex
    subst hex
    rcases args with _ | ⟨a, as⟩ <;> rfl
  | cons p pre ih =>
    intro hpre i asm
    have hp : p.type ≠ InstructionType.EXIT := hpre p (List.mem_cons_self _ _)
    have hrest : ∀ x ∈ pre, x.type ≠ InstructionType.EXIT :=
      fun x hx => hpre x (List.mem_cons_of_mem _ hx)
    obtain ⟨t, args⟩ := p
    simp only [List.cons_append]
    rw [compileLoop_cons_addsub cf elim true i t args _ asm hp,
        compileLoop_cons_addsub cf elim true i t args _ asm hp]
    cases stepAddSub cf elim t args i asm with
    | error e => rfl
    | ok asm2 => exact ih hrest (i + 1) asm2

/-- Claim C6: with `opt_dead_code = true`, compilation stops right after
lowering the first `Exit` instruction — the compiled program of
`pre ++ [exit] ++ post` equals that of `pre ++ [exit]`, so no statement
derived from any instruction after the first `Exit` can appear in the
output. -/
theorem dead_code_truncates_after_first_exit (cf elim : Bool)
    (pre : List Instruction) (ex : Instruction) (post : List Instruction)
    (hpre : ∀ x ∈ pre, x.type ≠ InstructionType.EXIT)
    (hex : ex.type = InstructionType.EXIT) :
    compile (pre ++ ex :: post) cf elim true = compile (pre ++ [ex]) cf elim true :=
  compileLoop_dc_truncates cf elim ex hex post pre hpre 0 Asm.init

/-- Witness for `dead_code_truncates_after_first_exit` at the concrete stream
`[ADD [1, 2], EXIT [0], SUB []]`. -/
theorem dead_code_truncates_after_first_exit_witness :
    compile ([⟨InstructionType.ADD, [Value.int 1, Value.int 2]⟩] ++
        ⟨InstructionType.EXIT, [Value.int 0]⟩ :: [⟨InstructionType.SUB, []⟩])
      false false true =
    compile ([⟨InstructionType.ADD, [Value.int 1, Value.int 2]⟩] ++
        [⟨InstructionType.EXIT, [Value.int 0]⟩]) false false true :=
  dead_code_truncates_after_first_exit false false _ _ _ (by decide) rfl

/-- A successful `stepAddSub` changes only the entry body. -/
lemma stepAddSub_frame (cf elim : Bool) (t : InstructionType) (args : List Value)
    (i : Nat) (asm a2 : Asm) (h : stepAddSub cf elim t args i asm = .ok a2) :
    a2.segment_bss = asm.segment_bss ∧ a2.segment_data = asm.segment_data ∧
    a2.segment_text = asm.segment_text := by
  unfold stepAddSub at h
  cases elim with
  | true =>
    simp only [if_pos] at h
    cases h
    exact ⟨rfl, rfl, rfl⟩
  | false =>
    simp only [Bool.false_eq_true, if_false] at h
    rcases args with _ | ⟨a, _ | ⟨b, _ | ⟨c, cs⟩⟩⟩
    · simp at h
    · rcases a with n | s <;> simp at h
    · rcases a with n | s <;> rcases b with m | sb <;> cases cf <;> simp_all <;>
        (subst h; exact ⟨rfl, rfl, rfl⟩)
    · rcases a with n | s <;> rcases b with m | sb <;> simp at h

/-- A successful run of the compiler loop changes only the entry body of the
program state. -/
lemma compileLoop_frame (cf elim dc : Bool) :
    ∀ (l : List Instruction) (i : Nat) (asm a : Asm),
    compileLoop cf elim dc i l asm = .ok a →
    a.segment_bss = asm.segment_bss ∧ a.segment_data = asm.segment_data ∧
    a.segment_text = asm.segment_text := by
  intro l
  induction l with
  | nil =>
    intro i asm a h
    cases h
    exact ⟨rfl, rfl, rfl⟩
  | cons ins rest ih =>
    intro i asm a h
    obtain ⟨t, args⟩ := ins
    cases ht : t with
    | EXIT =>
      subst ht
      rcases args with _ | ⟨v, vs⟩
      · simp [compileLoop] at h
      · simp only [compileLoop] at h
        cases dc with
        | true =>
          rw [if_pos rfl] at h
          cases h
          exact ⟨rfl, rfl, rfl⟩
        | false =>
          rw [if_neg Bool.false_ne_true] at h
          have := ih (i + 1) _ a h
          simpa using this
    | ADD =>
      subst ht
      rw [compileLoop_cons_addsub cf elim dc i _ args rest asm (by simp)] at h
      cases hs : stepAddSub cf elim InstructionType.ADD args i asm with
      | error e => rw [hs] at h; cases h
      | ok asm2 =>
        rw [hs] at h
        obtain ⟨h1, h2, h3⟩ := stepAddSub_frame cf elim _ args i asm asm2 hs
        obtain ⟨g1, g2, g3⟩ := ih (i + 1) asm2 a h
        exact ⟨g1.trans h1, g2.trans h2, g3.trans h3⟩

/-- Claim C9: under every optimization configuration, a successful `compile`
returns a program whose uninitialized-data and initialized-data segments are
empty and whose code segment is exactly the single fixed header
`global _start` — the compiler appends statements only to the entry body. -/
theorem compile_touches_only_entry_body (l : List Instruction) (cf elim dc : Bool)
    (a : Asm) (h : compile l cf elim dc = .ok a) :
    a.segment_bss = [] ∧ a.segment_data = [] ∧ a.segment_text = ["global _start"] :=
  compileLoop_frame cf elim dc l 0 Asm.init a h

/-- Witness for `compile_touches_only_entry_body` at the concrete stream
`[EXIT [0]]`. -/
theorem compile_touches_only_entry_body_witness :
    ({ segment_bss := [], segment_data := [], segment_text := ["global _start"],
       label_start := ["mov rax, 60", "xor rdi, rdi", "syscall"] } : Asm).segment_bss = [] ∧
    ({ segment_bss := [], segment_data := [], segment_text := ["global _start"],
       label_start := ["mov rax, 60", "xor rdi, rdi", "syscall"] } : Asm).segment_data = [] ∧
    ({ segment_bss := [], segment_data := [], segment_text := ["global _start"],
       label_start := ["mov rax, 60", "xor rdi, rdi", "syscall"] } : Asm).segment_text =
      ["global _start"] :=
  compile_touches_only_entry_body [⟨InstructionType.EXIT, [Value.int 0]⟩]
    false false false _ rfl

/-- Claim C1 (code evaluated at the failing input): contrary to the claim,
`compile` appends no default exit-with-code-zero sequence after the
instruction loop.  On the empty instruction stream (which contains no `Exit`)
it returns the freshly initialized program unchanged, whose entry body is
empty — in particular it does not end with the load/zero/syscall triple the
claim requires.  (The safety net exists only in the `emit` variant of
`src/src/emitter.py`; see `emit_no_exit_appends_default_sequence`.) -/
theorem compile_no_exit_default_sequence_missing :
    compile [] false false false = .ok Asm.init ∧
    Asm.init.label_start = [] ∧
    compile [⟨InstructionType.ADD, [Value.int 1, Value.int 2]⟩] false false false =
      .ok { Asm.init with label_start := ["mov rax, 1", "mov rbx, 2", "add rax, rbx"] } :=
  ⟨rfl, rfl, rfl⟩

/-- Claim C2 (counterexample): with `opt_useless_expressions = true` a
malformed `ADD` (zero operands) does NOT cause a `CompilationError` —
`compile` succeeds and returns the untouched initial program, because the
loop `continue`s before any validation. -/
theorem elim_malformed_add_no_error_counterexample :
    compile [⟨InstructionType.ADD, []⟩] false true false = .ok Asm.init := rfl

/-- Claim C2 (amended): with `opt_useless_expressions = true`, every `ADD` or
`SUB` instruction is skipped entirely — it contributes no statement, and no
validation of its operands takes place, so a malformed `ADD`/`SUB` raises no
`CompilationError`.  The loop state is passed through unchanged. -/
theorem elim_skips_add_sub_entirely (cf dc : Bool) (i : Nat) (ins : Instruction)
    (rest : List Instruction) (asm : Asm)
    (h : ins.type = InstructionType.ADD ∨ ins.type = InstructionType.SUB) :
    compileLoop cf true dc i (ins :: rest) asm = compileLoop cf true dc (i + 1) rest asm := by
  obtain ⟨t, args⟩ := ins
  rcases h with h | h <;> (simp only at h; subst h) <;> rfl

/-- Witness for `elim_skips_add_sub_entirely` at the concrete malformed
instruction `ADD []`. -/
theorem elim_skips_add_sub_entirely_witness :
    compileLoop false true false 0 [⟨InstructionType.ADD, []⟩] Asm.init =
      compileLoop false true false 1 [] Asm.init :=
  elim_skips_add_sub_entirely false false 0 ⟨InstructionType.ADD, []⟩ [] Asm.init (Or.inl rfl)

/-- Claim C3 (counterexample): `Exit` with an empty operand list is not
handled like `Exit(0)`: `ins.args[0]` raises an uncaught `IndexError` and
compilation fails (with no `CompilationError` and no program). -/
theorem exit_empty_args_index_error_counterexample :
    compile [⟨InstructionType.EXIT, []⟩] false false false =
      .error (PyError.indexError "list index out of range") := rfl

/-- Claim C3 (amended): an `Exit` with one integer operand lowers to exactly
three statements — load the exit syscall number, then `mov rdi, n` when the
operand `n` is nonzero or `xor rdi, rdi` when it is zero, then the syscall —
under every optimization configuration; but an `Exit` with an empty operand
list fails with an `IndexError` instead of being treated as `Exit(0)`. -/
theorem exit_one_operand_lowering (n : Int) (cf elim dc : Bool) :
    compile [⟨InstructionType.EXIT, [Value.int n]⟩] cf elim dc =
      .ok { Asm.init with label_start :=
        ["mov rax, 60",
         if n = 0 then "xor rdi, rdi" else "mov rdi, " ++ toString n,
         "syscall"] } ∧
    compile [⟨InstructionType.EXIT, []⟩] cf elim dc =
      .error (PyError.indexError "list index out of range") := by
  constructor
  · by_cases h : n = 0
    · subst h
      cases dc <;> rfl
    · have hb : (n != 0) = true := by simpa using h
      cases dc <;>
        simp [compile, compileLoop, Value.neZero, Value.pyStr, hb, h, toString, Asm.init]
  · cases dc <;> rfl

/-- Claim C4 (counterexample): folding `Sub(9, 4)` emits the accumulator
load of the SUM, `mov rax, 13` — not `mov rax, 5` as the claimed
first-minus-second convention requires — because `InstructionType.SUB` is an
Enum alias of `ADD`, so `ins.type == Type.ADD` is true and the subtraction
branch of the fold is dead code. -/
theorem constant_folding_sub_folds_to_sum_counterexample :
    compile [⟨InstructionType.SUB, [Value.int 9, Value.int 4]⟩] true false false =
      .ok { Asm.init with label_start := ["mov rax, 13"] } ∧
    ("mov rax, 13" : String) ≠ "mov rax, 5" :=
  ⟨rfl, by decide⟩

/-- Claim C4 (amended): with constant folding on and useless-expression
elimination off, an `ADD` or `SUB` instruction with two integer operands
contributes exactly one accumulator-load statement whose literal is the SUM
of the two operands in both cases — `SUB` being an Enum alias of `ADD`, the
fold always computes `first + second` — regardless of the dead-code flag,
the instruction's position, or the surrounding stream. -/
theorem constant_folding_single_mov_sum (a b : Int) (dc : Bool) (i : Nat)
    (rest : List Instruction) (asm : Asm) :
    (compileLoop true false dc i
        (⟨InstructionType.ADD, [Value.int a, Value.int b]⟩ :: rest) asm =
      compileLoop true false dc (i + 1) rest
        { asm with label_start := asm.label_start ++ [s!"mov rax, {a + b}"] }) ∧
    (compileLoop true false dc i
        (⟨InstructionType.SUB, [Value.int a, Value.int b]⟩ :: rest) asm =
      compileLoop true false dc (i + 1) rest
        { asm with label_start := asm.label_start ++ [s!"mov rax, {a + b}"] }) := by
  constructor <;> rfl

/-- Claim C5 (counterexample): with no optimization, `Sub(9, 4)` lowers to
`mov rax, 9; mov rbx, 4; add rax, rbx` — the third statement is the ADD
statement, never `sub rbx, rax`, because `InstructionType.SUB` aliases `ADD`
and the `else` branch selecting `sub rbx, rax` is dead code. -/
theorem unfolded_sub_emits_add_counterexample :
    compile [⟨InstructionType.SUB, [Value.int 9, Value.int 4]⟩] false false false =
      .ok { Asm.init with label_start := ["mov rax, 9", "mov rbx, 4", "add rax, rbx"] } ∧
    ("add rax, rbx" : String) ≠ "sub rbx, rax" :=
  ⟨rfl, by decide⟩

/-- Claim C5 (amended): with no optimization enabled, an `ADD` or `SUB`
instruction with two integer operands contributes exactly three statements:
load the first operand into the accumulator `rax`, load the second operand
into the scratch register `rbx`, then `add rax, rbx` — for BOTH kinds, since
`SUB` is an Enum alias of `ADD`; the subtract statement `sub rbx, rax` is
never emitted. -/
theorem unfolded_add_sub_lowering (a b : Int) (i : Nat)
    (rest : List Instruction) (asm : Asm) :
    (compileLoop false false false i
        (⟨InstructionType.ADD, [Value.int a, Value.int b]⟩ :: rest) asm =
      compileLoop false false false (i + 1) rest
        { asm with label_start :=
            asm.label_start ++ [s!"mov rax, {a}", s!"mov rbx, {b}", "add rax, rbx"] }) ∧
    (compileLoop false false false i
        (⟨InstructionType.SUB, [Value.int a, Value.int b]⟩ :: rest) asm =
      compileLoop false false false (i + 1) rest
        { asm with label_start :=
            asm.label_start ++ [s!"mov rax, {a}", s!"mov rbx, {b}", "add rax, rbx"] }) := by
  constructor <;> rfl

/-- Claim C7 (counterexample): a malformed `Sub` instruction is reported
under the kind name `ADD`, not `SUB` — `compile([Sub()])` raises
`CompilationError("Instruction ADD (0): Expected 2 arguments, got 0")`,
because `ins.type == Type.ADD` is true for the aliased `SUB` member and
`ins_name` is therefore always `"ADD"`. -/
theorem malformed_sub_reports_add_name_counterexample :
    compile [⟨InstructionType.SUB, []⟩] false false false =
      .error (PyError.compilationError
        "Instruction ADD (0): Expected 2 arguments, got 0") ∧
    ("Instruction ADD (0): Expected 2 arguments, got 0" : String) ≠
      "Instruction SUB (0): Expected 2 arguments, got 0" :=
  ⟨rfl, by decide⟩

/-- Claim C7 (amended): with useless-expression elimination off, an
`ADD`/`SUB` instruction at loop index `i` whose operand count is not 2 fails
with a `CompilationError` carrying the 0-based index in the wrong-count
message, and one with two operands of which some is not an integer fails
with the distinct wrong-type message (also carrying the index); in both
messages the kind name is reported as `ADD` even for a `Sub` instruction,
`SUB` being an Enum alias of `ADD`.  The error aborts the whole loop, so no
program is returned. -/
theorem malformed_add_sub_error_messages (cf dc : Bool) (i : Nat)
    (t : InstructionType) (args : List Value) (rest : List Instruction)
    (asm : Asm) (h : t = InstructionType.ADD ∨ t = InstructionType.SUB) :
    (args.length ≠ 2 →
      compileLoop cf false dc i (⟨t, args⟩ :: rest) asm =
        .error (PyError.compilationError (fmtCount "ADD" i args.length))) ∧
    (∀ a b, args = [a, b] → (a.isInt = false ∨ b.isInt = false) →
      compileLoop cf false dc i (⟨t, args⟩ :: rest) asm =
        .error (PyError.compilationError (fmtType "ADD" i a.typeName b.typeName))) := by
  rcases h with h | h <;> subst h <;> constructor
  all_goals
    first
    | · intro hlen
        rcases args with _ | ⟨a, _ | ⟨b, _ | ⟨c, cs⟩⟩⟩
        · rfl
        · rcases a with na | sa <;> rfl
        · simp at hlen
        · rcases a with na | sa <;> rcases b with nb | sb <;> rfl
    | · rintro a b rfl hint
        rcases a with na | sa <;> rcases b with nb | sb
        · simp [Value.isInt] at hint
        all_goals rfl

/-- Witness for `malformed_add_sub_error_messages` at the concrete malformed
instructions `ADD []` (wrong count) and `SUB ["x", 1]` (wrong type; its
message names `ADD` since `SUB` aliases `ADD`). -/
theorem malformed_add_sub_error_messages_witness :
    compileLoop false false false 0 [⟨InstructionType.ADD, []⟩] Asm.init =
      .error (PyError.compilationError (fmtCount "ADD" 0 0)) ∧
    compileLoop false false false 3 [⟨InstructionType.SUB, [Value.other "x", Value.int 1]⟩]
        Asm.init =
      .error (PyError.compilationError
        (fmtType "ADD" 3 (Value.other "x").typeName (Value.int 1).typeName)) :=
  ⟨(malformed_add_sub_error_messages false false 0 InstructionType.ADD [] [] Asm.init
      (Or.inl rfl)).1 (by decide),
   (malformed_add_sub_error_messages false false 3 InstructionType.SUB
      [Value.other "x", Value.int 1] [] Asm.init (Or.inr rfl)).2
      (Value.other "x") (Value.int 1) rfl (Or.inl rfl)⟩

/-- `String.join` distributes over cons. -/
lemma join_cons (a : String) (l : List String) :
    String.join (a :: l) = a ++ String.join l := by
  apply String.ext
  simp [String.data_join, String.data_append]

/-- The characters of a nonempty newline-joined line list: the first line
followed by each further line prefixed with a newline. -/
lemma joinLines_data (x : String) (l : List String) :
    (joinLines (x :: l)).data =
      x.data ++ (l.map (fun s => '\n' :: s.data)).flatten := by
  induction l generalizing x with
  | nil => simp [joinLines]
  | cons y ys ih =>
    show (x ++ "\n" ++ joinLines (y :: ys)).data = _
    simp [String.data_append, ih y, List.append_assoc]

/-- Claim C8: serializing any program renders exactly the line list of
`specLines` joined by newlines — the four segments in the fixed order
uninitialized-data (`.bss`), initialized-data (`.data`), code (`.text`),
entry label and entry body, one statement per line, each uniformly indented
by one space, regardless of which statement lists are empty; and the
program-builder constructor places the fixed entry-point-declaring header
`global _start` in the code segment. -/
theorem raw_serialization_fixed_order :
    (∀ a : Asm, a.raw = joinLines (specLines a)) ∧
    Asm.init.segment_text = ["global _start"] := by
  refine ⟨fun a => ?_, rfl⟩
  apply String.ext
  rw [specLines, joinLines_data]
  have hmap : (String.data ∘ fun ins : String => "\n " ++ ins) =
      ((fun s : String => '\n' :: s.data) ∘ fun s : String => " " ++ s) := by
    funext s
    simp [String.data_append]
  simp [Asm.raw, String.data_append, String.data_join, List.map_map, hmap,
    List.map_append, List.flatten_append, List.append_assoc]

/-- Componentwise-equal instructions are equal. -/
lemma instruction_eq_of_parts (i1 i2 : Instruction)
    (ht : i1.type = i2.type) (ha : i1.args = i2.args) : i1 = i2 := by
  cases i1
  cases i2
  simp only [Instruction.mk.injEq]
  exact ⟨ht, ha⟩

/-- Claim C10: `compile` is deterministic — two instruction sequences with
the same kinds and operand lists in the same order, compiled with the same
optimization flags, serialize to identical texts.  The embedding is a pure
function of its arguments because the source reads no state outside them
(`compile` never consults `utils.rand_id` or any global). -/
theorem compile_deterministic_serialization (l1 l2 : List Instruction)
    (cf elim dc : Bool) (hlen : l1.length = l2.length)
    (hsame : ∀ (j : Nat) (h1 : j < l1.length) (h2 : j < l2.length),
      (l1.get ⟨j, h1⟩).type = (l2.get ⟨j, h2⟩).type ∧
      (l1.get ⟨j, h1⟩).args = (l2.get ⟨j, h2⟩).args) :
    (compile l1 cf elim dc).map Asm.raw = (compile l2 cf elim dc).map Asm.raw := by
  have heq : l1 = l2 := by
    apply List.ext_get hlen
    intro j h1 h2
    exact instruction_eq_of_parts _ _ (hsame j h1 h2).1 (hsame j h1 h2).2
  rw [heq]

/-- Witness for `compile_deterministic_serialization` on two syntactically
distinct but componentwise-equal one-instruction streams. -/
theorem compile_deterministic_serialization_witness :
    (compile [⟨InstructionType.ADD, [Value.int 2, Value.int 2]⟩] false false false).map
        Asm.raw =
      (compile [⟨InstructionType.ADD, [Value.int 2, Value.int (1 + 1)]⟩] false false
          false).map Asm.raw :=
  compile_deterministic_serialization _ _ false false false (by decide)
    (by
      intro j h1 h2
      match j with
      | 0 => exact ⟨rfl, by norm_num⟩
      | n + 1 => simp at h1)

/-- One-step unfolding of `emitLoop` at a non-`EXIT` head: the `ADD`/`SUB`
arm of `emitLoop` is `stepAddSub` with both flags off, and the
`exit_satisfied` flag is passed through unchanged. -/
lemma emitLoop_cons_addsub (i : Nat) (t : InstructionType) (args : List Value)
    (rest : List Instruction) (asm : Asm) (b : Bool)
    (h : t ≠ InstructionType.EXIT) :
    emitLoop i (⟨t, args⟩ :: rest) asm b =
      match stepAddSub false false t args i asm with
      | .error e => .error e
      | .ok asm2 => emitLoop (i + 1) rest asm2 b := by
  cases t with
  | EXIT => exact absurd rfl h
  | ADD =>
    rcases args with _ | ⟨a, _ | ⟨v, _ | ⟨c, cs⟩⟩⟩
    · rfl
    · rcases a with n | s <;> rfl
    · rcases a with n | s <;> rcases v with m | sb <;> rfl
    · rcases a with n | s <;> rcases v with m | sb <;> rfl

/-- On a stream with no `EXIT`, `emitLoop` leaves `exit_satisfied` at its
incoming value. -/
lemma emitLoop_no_exit_flag :
    ∀ (l : List Instruction), (∀ x ∈ l, x.type ≠ InstructionType.EXIT) →
    ∀ (i : Nat) (asm : Asm) (b : Bool) (a : Asm) (b2 : Bool),
    emitLoop i l asm b = .ok (a, b2) → b2 = b := by
  intro l
  induction l with
  | nil =>
    intro _ i asm b a b2 h
    cases h
    rfl
  | cons p rest ih =>
    intro hl i asm b a b2 h
    have hp : p.type ≠ InstructionType.EXIT := hl p (List.mem_cons_self _ _)
    have hrest : ∀ x ∈ rest, x.type ≠ InstructionType.EXIT :=
      fun x hx => hl x (List.mem_cons_of_mem _ hx)
    obtain ⟨t, args⟩ := p
    rw [emitLoop_cons_addsub i t args rest asm b hp] at h
    cases hs : stepAddSub false false t args i asm with
    | error e => rw [hs] at h; cases h
    | ok asm2 =>
      rw [hs] at h
      exact ih hrest (i + 1) asm2 b a b2 h

/-- Unlike `compile`, the `emit` variant of `src/src/emitter.py` does append
the default exit-with-code-zero sequence after the loop whenever the stream
contained no `EXIT`: its entry body always ends with
`mov rax, 60; xor rdi, rdi; syscall` in that case.  (This is the behavior
Claim C1 wrongly attributes to `compile`.) -/
theorem emit_no_exit_appends_default_sequence (l : List Instruction)
    (hl : ∀ x ∈ l, x.type ≠ InstructionType.EXIT) (a : Asm) (h : emit l = .ok a) :
    ∃ pre, a.label_start = pre ++ ["mov rax, 60", "xor rdi, rdi", "syscall"] := by
  unfold emit at h
  cases he : emitLoop 0 l Asm.init false with
  | error e => rw [he] at h; cases h
  | ok p =>
    obtain ⟨asm1, b⟩ := p
    rw [he] at h
    have hb : b = false := emitLoop_no_exit_flag l hl 0 Asm.init false asm1 b he
    subst hb
    simp only [Bool.false_eq_true, if_false] at h
    cases h
    exact ⟨asm1.label_start, rfl⟩

end Veklang
